import Mathlib

/-!
Verification of the MCP tool-server repository (calculator tools and Tavily
search tools).  The Python sources are shallowly embedded: pure helper
functions become Lean functions, the per-tool handlers become functions that
take the external search provider as an oracle argument and return the
MCP-level outcome together with the list of provider requests issued.
-/

namespace Tavily

/-! ## Python string primitives

Models of the Python built-in string operations used by the source:
str.strip (with the Python whitespace set), str.split on a comma, and
the truthiness test on strings and lists.
-/

/-- The characters removed by Python str.strip when called with no
argument (ASCII part; the sources only ever strip these). -/
def isPySpace (c : Char) : Bool :=
  c = ' ' || c = '\t' || c = '\n' || c = '\r' || c = '\x0b' || c = '\x0c'

/-- Leading-whitespace removal on a character list. -/
def ltrimC (cs : List Char) : List Char := cs.dropWhile isPySpace

/-- Trailing-whitespace removal on a character list. -/
def rtrimC (cs : List Char) : List Char := (cs.reverse.dropWhile isPySpace).reverse

/-- Model of Python str.strip on a character list: drop leading and
trailing whitespace. -/
def stripChars (cs : List Char) : List Char := rtrimC (ltrimC cs)

/-- Model of Python str.strip. -/
def pyStrip (s : String) : String := String.mk (stripChars s.toList)

/-- Model of Python str.split applied to a one-comma separator, on a
character list.  Like Python, empty pieces are kept and the result is
never the empty list (splitting the empty string gives one empty piece). -/
def splitOnComma : List Char → List (List Char)
  | [] => [[]]
  | c :: rest =>
    if c = ',' then [] :: splitOnComma rest
    else
      match splitOnComma rest with
      | [] => [[c]]
      | piece :: pieces => (c :: piece) :: pieces

/-- Model of Python s.split with a comma separator. -/
def pySplitComma (s : String) : List String := (splitOnComma s.toList).map String.mk

/-- The list comprehension used throughout the source for domain lists:
keep the entries whose stripped form is non-empty (Python truthiness of a
string) and return their stripped forms, in order. -/
def stripFilter (xs : List String) : List String :=
  (xs.filter (fun d => pyStrip d ≠ "")).map pyStrip

/-! ## JSON values and a model of Python json.loads

json is the Python standard library (external to the repository); the
normalizer calls json.loads and catches only json.JSONDecodeError.  The
decoder is modelled as a fuel-indexed recursive-descent parser over the
JSON grammar; numeric literals keep their raw token (the numeric value is
never used by the source, only the fact that the result is not a string). -/

inductive JValue where
  | jnull : JValue
  | jbool : Bool → JValue
  | jnum : String → JValue
  | jstr : String → JValue
  | jarr : List JValue → JValue
  | jobj : List (String × JValue) → JValue
deriving Repr, BEq

/-- JSON insignificant whitespace. -/
def isJsonWs (c : Char) : Bool :=
  c = ' ' || c = '\t' || c = '\n' || c = '\r'

def skipWs (cs : List Char) : List Char := cs.dropWhile isJsonWs

/-- Value of one hexadecimal digit. -/
def hexVal (c : Char) : Option Nat :=
  if '0' ≤ c ∧ c ≤ '9' then some (c.toNat - '0'.toNat)
  else if 'a' ≤ c ∧ c ≤ 'f' then some (c.toNat - 'a'.toNat + 10)
  else if 'A' ≤ c ∧ c ≤ 'F' then some (c.toNat - 'A'.toNat + 10)
  else none

/-- Body of a JSON string literal, after the opening quote: returns the
decoded characters and the input remaining after the closing quote.
Escape sequences follow the JSON grammar; unescaped control characters
are rejected, as in the strict default mode of the Python decoder. -/
def parseStringBody : Nat → List Char → Option (List Char × List Char)
  | 0, _ => none
  | _, [] => none
  | fuel + 1, c :: rest =>
    if c = '"' then some ([], rest)
    else if c = '\\' then
      match rest with
      | [] => none
      | e :: rest2 =>
        let esc : Option (Char × List Char) :=
          if e = '"' then some ('"', rest2)
          else if e = '\\' then some ('\\', rest2)
          else if e = '/' then some ('/', rest2)
          else if e = 'b' then some ('\x08', rest2)
          else if e = 'f' then some ('\x0c', rest2)
          else if e = 'n' then some ('\n', rest2)
          else if e = 'r' then some ('\r', rest2)
          else if e = 't' then some ('\t', rest2)
          else if e = 'u' then
            match rest2 with
            | h1 :: h2 :: h3 :: h4 :: rest3 =>
              match hexVal h1, hexVal h2, hexVal h3, hexVal h4 with
              | some a, some b, some c2, some d =>
                some (Char.ofNat (((a * 16 + b) * 16 + c2) * 16 + d), rest3)
              | _, _, _, _ => none
            | _ => none
          else none
        match esc with
        | none => none
        | some (ch, rest3) =>
          match parseStringBody fuel rest3 with
          | some (acc, rem) => some (ch :: acc, rem)
          | none => none
    else if c.toNat < 32 then none
    else
      match parseStringBody fuel rest with
      | some (acc, rem) => some (c :: acc, rem)
      | none => none

/-- One JSON numeric literal at the head of the input: returns the raw
token and the rest.  Grammar: optional minus, integer part without a
spurious leading zero, optional fraction, optional exponent. -/
def parseNumber (cs : List Char) : Option (List Char × List Char) :=
  let (neg, cs1) :=
    match cs with
    | '-' :: r => ([('-' : Char)], r)
    | _ => (([] : List Char), cs)
  let intPart := cs1.takeWhile Char.isDigit
  let cs2 := cs1.dropWhile Char.isDigit
  if intPart = [] then none
  else if intPart.head? = some '0' ∧ intPart.length > 1 then none
  else
    let (fracPart, cs3) :=
      match cs2 with
      | '.' :: cs2a =>
        let f := cs2a.takeWhile Char.isDigit
        (if f = [] then none else some ('.' :: f), cs2a.dropWhile Char.isDigit)
      | _ => (some [], cs2)
    match fracPart with
    | none => none
    | some frac =>
      match cs3 with
      | e :: cs3a =>
        if e = 'e' ∨ e = 'E' then
          let (sgn, cs4) :=
            match cs3a with
            | '+' :: r => ([('+' : Char)], r)
            | '-' :: r => ([('-' : Char)], r)
            | _ => (([] : List Char), cs3a)
          let expDigits := cs4.takeWhile Char.isDigit
          if expDigits = [] then none
          else some (neg ++ intPart ++ frac ++ e :: sgn ++ expDigits,
                     cs4.dropWhile Char.isDigit)
        else some (neg ++ intPart ++ frac, cs3)
      | [] => some (neg ++ intPart ++ frac, cs3)

mutual

/-- One JSON value at the head of the input (leading whitespace allowed). -/
def parseValue : Nat → List Char → Option (JValue × List Char)
  | 0, _ => none
  | fuel + 1, cs =>
    match skipWs cs with
    | 'n' :: 'u' :: 'l' :: 'l' :: rest => some (.jnull, rest)
    | 't' :: 'r' :: 'u' :: 'e' :: rest => some (.jbool true, rest)
    | 'f' :: 'a' :: 'l' :: 's' :: 'e' :: rest => some (.jbool false, rest)
    | '"' :: rest =>
      match parseStringBody (rest.length + 1) rest with
      | some (chars, rem) => some (.jstr (String.mk chars), rem)
      | none => none
    | '[' :: rest =>
      match skipWs rest with
      | ']' :: rem => some (.jarr [], rem)
      | _ =>
        match parseElems fuel rest with
        | some (elems, rem) => some (.jarr elems, rem)
        | none => none
    | '{' :: rest =>
      match skipWs rest with
      | '}' :: rem => some (.jobj [], rem)
      | _ =>
        match parseMembers fuel rest with
        | some (mems, rem) => some (.jobj mems, rem)
        | none => none
    | other =>
      match parseNumber other with
      | some (tok, rem) => some (.jnum (String.mk tok), rem)
      | none => none

/-- Comma-separated JSON values up to a closing square bracket. -/
def parseElems : Nat → List Char → Option (List JValue × List Char)
  | 0, _ => none
  | fuel + 1, cs =>
    match parseValue fuel cs with
    | none => none
    | some (v, rem) =>
      match skipWs rem with
      | ',' :: rest =>
        match parseElems fuel rest with
        | some (vs, rem2) => some (v :: vs, rem2)
        | none => none
      | ']' :: rest => some ([v], rest)
      | _ => none

/-- Comma-separated JSON object members up to a closing curly bracket. -/
def parseMembers : Nat → List Char → Option (List (String × JValue) × List Char)
  | 0, _ => none
  | fuel + 1, cs =>
    match skipWs cs with
    | '"' :: rest =>
      match parseStringBody (rest.length + 1) rest with
      | none => none
      | some (key, rem) =>
        match skipWs rem with
        | ':' :: rest2 =>
          match parseValue fuel rest2 with
          | none => none
          | some (v, rem2) =>
            match skipWs rem2 with
            | ',' :: rest3 =>
              match parseMembers fuel rest3 with
              | some (ms, rem3) => some ((String.mk key, v) :: ms, rem3)
              | none => none
            | '}' :: rest3 => some ([(String.mk key, v)], rest3)
            | _ => none
        | _ => none
    | _ => none

end

/-- Model of Python json.loads: decode one JSON document, requiring only
whitespace after it.  A json.JSONDecodeError is modelled as none. -/
def jsonLoads (s : String) : Option JValue :=
  match parseValue (s.toList.length + 1) s.toList with
  | some (v, rest) => if skipWs rest = [] then some v else none
  | none => none

/-! ## The domain-list normalizer (SearchBase.parse_domains_list) -/

/-- The dynamically typed argument of parse_domains_list: the validator
receives None, a list, a string, or a value of any other type. -/
inductive DomainsInput where
  | pyNone : DomainsInput
  | pyList : List String → DomainsInput
  | pyStr : String → DomainsInput
  | pyOther : DomainsInput

/-- The comprehension over a decoded JSON array: each element has strip
called on it, which raises AttributeError (modelled as Except.error) when
the element is not a string. -/
def jstripFilter : List JValue → Except String (List String)
  | [] => .ok []
  | JValue.jstr s :: rest =>
    match jstripFilter rest with
    | .ok r => .ok (if pyStrip s = "" then r else pyStrip s :: r)
    | .error e => .error e
  | _ :: _ => .error "AttributeError: object has no attribute strip"

/-- Model of SearchBase.parse_domains_list.  An uncaught Python exception
(AttributeError from calling strip on a non-string JSON value) is
modelled as Except.error. -/
def parse_domains_list : DomainsInput → Except String (List String)
  | .pyNone => .ok []
  | .pyList xs => .ok (stripFilter xs)
  | .pyStr s =>
    let v := pyStrip s
    if v = "" then .ok []
    else
      match jsonLoads v with
      | some parsed =>
        match parsed with
        | .jarr elems => jstripFilter elems
        | .jstr t => .ok [pyStrip t]
        | _ => .error "AttributeError: object has no attribute strip"
      | none =>
        if v.toList.contains ',' then .ok (stripFilter (pySplitComma v))
        else .ok [v]
  | .pyOther => .ok []

/-- Model of the pydantic constraint on SearchBase.max_results, declared
as Field gt 0, lt 20. -/
def SearchBase.max_results_valid (n : Int) : Bool :=
  decide (0 < n) && decide (n < 20)

/-! ## Search responses and the result formatter -/

structure ResultItem where
  title : String
  url : String
  content : String
  published_date : Option String
deriving Repr, DecidableEq

/-- The fields of the provider response dictionary read by the source.
An absent key is none; included_domains and excluded_domains are the keys
the handlers attach before formatting. -/
structure SearchResponse where
  answer : Option String
  results : List ResultItem
  included_domains : Option (List String)
  excluded_domains : Option (List String)
deriving Repr, DecidableEq

/-- Python truthiness of response.get on a string-valued key: the key is
present and the string is non-empty. -/
def truthyStr : Option String → Bool
  | none => false
  | some s => s ≠ ""

/-- Python truthiness of response.get on a list-valued key: the key is
present and the list is non-empty. -/
def truthyList : Option (List String) → Bool
  | none => false
  | some l => l ≠ []

/-- The source lines emitted under the answer section, one per result. -/
def sourcesLines (results : List ResultItem) : List String :=
  results.map (fun result => "- " ++ result.title ++ ": " ++ result.url)

/-- The per-result lines of the detailed section.  The title line starts
with an embedded newline, as in the source f-string. -/
def detailLines (results : List ResultItem) : List String :=
  (results.map (fun result =>
    ["\nTitle: " ++ result.title,
     "URL: " ++ result.url,
     "Content: " ++ result.content] ++
    (if truthyStr result.published_date
     then ["Published: " ++ result.published_date.getD ""] else []))).flatten

/-- Model of format_results: the output list is built by the same three
conditional blocks as the source, then joined with newlines. -/
def format_results (response : SearchResponse) : String :=
  let output : List String := []
  let output := output ++
    (if truthyList response.included_domains || truthyList response.excluded_domains then
      (["Search Filters:"] ++
       ((if truthyList response.included_domains then
           ["Including domains: " ++
             String.intercalate ", " (response.included_domains.getD [])]
         else []) ++
        (if truthyList response.excluded_domains then
           ["Excluding domains: " ++
             String.intercalate ", " (response.excluded_domains.getD [])]
         else [])) ++
       [""])
     else [])
  let output := output ++
    (if truthyStr response.answer then
      ["Answer: " ++ response.answer.getD "", "\nSources:"] ++
        sourcesLines response.results ++ [""]
     else [])
  let output := output ++ ["Detailed Results:"] ++ detailLines response.results
  String.intercalate "\n" output

/-! ## The three search tool handlers

Each handler is a function of the external provider (the TavilyClient
search method, passed as an oracle), returning the MCP-level outcome and
the list of provider requests issued during the invocation. -/

/-- The argument record of one outbound client.search call. -/
structure ProviderRequest where
  query : String
  max_results : Int
  search_depth : Option String
  topic : Option String
  days : Option Int
  include_answer : Bool
  include_domains : List String
  exclude_domains : List String
deriving Repr, DecidableEq

/-- Outcome of one provider call: a response dictionary, or one of the
exception types the handlers catch. -/
inductive ProviderOutcome where
  | success : SearchResponse → ProviderOutcome
  | invalidAPIKeyError : String → ProviderOutcome
  | usageLimitExceededError : String → ProviderOutcome
  | valueError : String → ProviderOutcome

/-- The payload of McpError: a JSON-RPC error code and a message. -/
structure ErrorData where
  code : Int
  message : String
deriving Repr, DecidableEq

/-- mcp.types.INVALID_PARAMS. -/
def INVALID_PARAMS : Int := -32602

/-- mcp.types.INTERNAL_ERROR. -/
def INTERNAL_ERROR : Int := -32603

/-- The inline domain parsing done by every handler: if the argument is a
non-empty string whose stripped form is non-empty, split on commas, strip
each piece and drop the falsy ones; otherwise the empty list. -/
def parseHandlerDomains (domains : String) : List String :=
  if domains ≠ "" ∧ pyStrip domains ≠ "" then stripFilter (pySplitComma domains)
  else []

/-- The request tavily_web_search sends: search_depth falls back to basic
when unrecognized, domains are parsed inline. -/
def webSearchRequest (query : String) (max_results : Int) (search_depth : String)
    (include_domains exclude_domains : String) : ProviderRequest :=
  let search_depth :=
    if search_depth = "basic" || search_depth = "advanced" then search_depth else "basic"
  { query := query
    max_results := max_results
    search_depth := some search_depth
    topic := none
    days := none
    include_answer := false
    include_domains := parseHandlerDomains include_domains
    exclude_domains := parseHandlerDomains exclude_domains }

/-- The request tavily_answer_search sends: search_depth falls back to
advanced when unrecognized, and include_answer is set. -/
def answerSearchRequest (query : String) (max_results : Int) (search_depth : String)
    (include_domains exclude_domains : String) : ProviderRequest :=
  let search_depth :=
    if search_depth = "basic" || search_depth = "advanced" then search_depth else "advanced"
  { query := query
    max_results := max_results
    search_depth := some search_depth
    topic := none
    days := none
    include_answer := true
    include_domains := parseHandlerDomains include_domains
    exclude_domains := parseHandlerDomains exclude_domains }

/-- The request tavily_news_search sends: topic news, a days window, no
search_depth argument. -/
def newsSearchRequest (query : String) (max_results : Int) (days : Int)
    (include_domains exclude_domains : String) : ProviderRequest :=
  { query := query
    max_results := max_results
    search_depth := none
    topic := some "news"
    days := some days
    include_answer := false
    include_domains := parseHandlerDomains include_domains
    exclude_domains := parseHandlerDomains exclude_domains }

/-- After a successful provider call, the handlers attach the non-empty
domain filters to the response dictionary for the formatter. -/
def attachDomains (response : SearchResponse)
    (include_list exclude_list : List String) : SearchResponse :=
  let response :=
    if include_list ≠ [] then { response with included_domains := some include_list }
    else response
  if exclude_list ≠ [] then { response with excluded_domains := some exclude_list }
  else response

/-- The shared try/except body of the three handlers, given the request
already built: one provider call; on success the formatted text, on the
two provider exceptions an INTERNAL_ERROR McpError, on ValueError an
INVALID_PARAMS McpError. -/
def runSearchTool (provider : ProviderRequest → ProviderOutcome)
    (req : ProviderRequest) : Except ErrorData String × List ProviderRequest :=
  match provider req with
  | .success response =>
    (.ok (format_results (attachDomains response req.include_domains req.exclude_domains)),
     [req])
  | .invalidAPIKeyError e => (.error ⟨INTERNAL_ERROR, e⟩, [req])
  | .usageLimitExceededError e => (.error ⟨INTERNAL_ERROR, e⟩, [req])
  | .valueError e => (.error ⟨INVALID_PARAMS, e⟩, [req])

/-- Model of the tavily_web_search tool. -/
def tavily_web_search (provider : ProviderRequest → ProviderOutcome)
    (query : String) (max_results : Int) (search_depth : String)
    (include_domains exclude_domains : String) :
    Except ErrorData String × List ProviderRequest :=
  runSearchTool provider
    (webSearchRequest query max_results search_depth include_domains exclude_domains)

/-- Model of the tavily_answer_search tool. -/
def tavily_answer_search (provider : ProviderRequest → ProviderOutcome)
    (query : String) (max_results : Int) (search_depth : String)
    (include_domains exclude_domains : String) :
    Except ErrorData String × List ProviderRequest :=
  runSearchTool provider
    (answerSearchRequest query max_results search_depth include_domains exclude_domains)

/-- Model of the tavily_news_search tool. -/
def tavily_news_search (provider : ProviderRequest → ProviderOutcome)
    (query : String) (max_results : Int) (days : Int)
    (include_domains exclude_domains : String) :
    Except ErrorData String × List ProviderRequest :=
  runSearchTool provider
    (newsSearchRequest query max_results days include_domains exclude_domains)

end Tavily

namespace Calculator

/-- Model of the add tool: int(a) + int(b) on int arguments. -/
def add (a b : Int) : Int := a + b

/-- Model of the subtract tool: int(a) - int(b) on int arguments. -/
def subtract (a b : Int) : Int := a - b

/-- Model of the square_root tool.  math.sqrt is the external numeric
runtime; per its documented convention it raises ValueError math domain
error on a negative argument and otherwise returns the non-negative
square root, idealized here over the reals. -/
noncomputable def square_root (a : ℝ) : Except String ℝ :=
  if a < 0 then .error "math domain error" else .ok (Real.sqrt a)

end Calculator

namespace Tavily

/-! ## Lemmas about the string primitives -/

theorem toList_mk (l : List Char) : (String.mk l).toList = l := rfl

theorem mk_inj {l l' : List Char} : String.mk l = String.mk l' ↔ l = l' :=
  ⟨fun h => by injection h, fun h => by rw [h]⟩

theorem mk_eq_empty {l : List Char} : String.mk l = "" ↔ l = [] := mk_inj

theorem dropWhilePySpace_idem (cs : List Char) :
    (cs.dropWhile isPySpace).dropWhile isPySpace = cs.dropWhile isPySpace := by
  cases h : cs.dropWhile isPySpace with
  | nil => rfl
  | cons x xs =>
    have hx := List.head?_dropWhile_not isPySpace cs
    rw [h] at hx
    simp only [List.head?_cons] at hx
    rw [List.dropWhile_cons_of_neg (by simp [hx])]

theorem ltrimC_idem (cs : List Char) : ltrimC (ltrimC cs) = ltrimC cs :=
  dropWhilePySpace_idem cs

theorem rtrimC_idem (cs : List Char) : rtrimC (rtrimC cs) = rtrimC cs := by
  unfold rtrimC
  rw [List.reverse_reverse, dropWhilePySpace_idem]

/-- rtrimC removes a tail of its argument. -/
theorem rtrimC_append (m : List Char) : ∃ t, rtrimC m ++ t = m := by
  obtain ⟨t, ht⟩ := List.dropWhile_suffix (l := m.reverse) isPySpace
  refine ⟨t.reverse, ?_⟩
  have h2 := congrArg List.reverse ht
  simpa [rtrimC] using h2

/-- A cons list fixed by leading-whitespace removal starts with a
non-whitespace character. -/
theorem ltrimC_cons_fixed {x : Char} {l : List Char}
    (hm : ltrimC (x :: l) = x :: l) : ¬isPySpace x = true := by
  intro hx
  unfold ltrimC at hm
  rw [List.dropWhile_cons_of_pos hx] at hm
  have h1 : (List.dropWhile isPySpace l).length ≤ l.length :=
    (List.dropWhile_suffix isPySpace).sublist.length_le
  have h2 := congrArg List.length hm
  simp only [List.length_cons] at h2
  omega

theorem ltrimC_rtrimC (m : List Char) (hm : ltrimC m = m) :
    ltrimC (rtrimC m) = rtrimC m := by
  cases h : rtrimC m with
  | nil => rfl
  | cons x xs =>
    obtain ⟨t, ht⟩ := rtrimC_append m
    rw [h] at ht
    have hm2 := hm
    rw [← ht] at hm2
    have hx := ltrimC_cons_fixed (l := xs ++ t) (by simpa using hm2)
    unfold ltrimC
    rw [List.dropWhile_cons_of_neg hx]

theorem stripChars_idem (cs : List Char) :
    stripChars (stripChars cs) = stripChars cs := by
  unfold stripChars
  rw [ltrimC_rtrimC (ltrimC cs) (ltrimC_idem cs), rtrimC_idem]

theorem pyStrip_idem (s : String) : pyStrip (pyStrip s) = pyStrip s := by
  unfold pyStrip
  rw [toList_mk, stripChars_idem]

theorem stripFilter_sublist (xs : List String) :
    (stripFilter xs).Sublist (xs.map pyStrip) :=
  List.Sublist.map pyStrip (List.filter_sublist xs)

theorem mem_stripFilter {x : String} {xs : List String} (h : x ∈ stripFilter xs) :
    pyStrip x ≠ "" := by
  unfold stripFilter at h
  obtain ⟨d, hd, rfl⟩ := List.mem_map.mp h
  have h2 := (List.mem_filter.mp hd).2
  simp only [decide_eq_true_eq] at h2
  rwa [pyStrip_idem]

theorem stripFilter_cons (x : String) (xs : List String) :
    stripFilter (x :: xs) =
      if pyStrip x = "" then stripFilter xs else pyStrip x :: stripFilter xs := by
  unfold stripFilter
  rw [List.filter_cons]
  by_cases h : pyStrip x = "" <;> simp [h]

theorem jstripFilter_map_jstr (xs : List String) :
    jstripFilter (xs.map JValue.jstr) = Except.ok (stripFilter xs) := by
  induction xs with
  | nil => rfl
  | cons x xs ih =>
    simp only [List.map_cons, jstripFilter, ih, stripFilter_cons]

/-- Splitting a comma-free string yields one piece. -/
theorem splitOnComma_no_comma (cs : List Char) (h : cs.contains ',' = false) :
    splitOnComma cs = [cs] := by
  induction cs with
  | nil => rfl
  | cons c rest ih =>
    simp only [List.contains_cons, Bool.or_eq_false_iff] at h
    have hc : ¬c = ',' := by
      intro hc; rw [hc] at h; simp at h
    unfold splitOnComma
    rw [if_neg hc, ih h.2]

theorem jsonLoads_empty : jsonLoads "" = none := rfl

/-! ## Claim theorems: the normalizer -/

/-- The invariant of the spec: a returned domain list has no entry that is
empty or whitespace-only (equivalently, stripping any entry is non-empty). -/
def noBlankEntries (l : List String) : Prop := ∀ x ∈ l, pyStrip x ≠ ""

/-- C3: on the string " a , b ,, c " the normalizer returns a, b, c; on
the JSON array string of x.com and y.com it returns those two entries; on
None it returns the empty list. -/
theorem C3_normalizer_examples :
    parse_domains_list (DomainsInput.pyStr " a , b ,, c ") = Except.ok ["a", "b", "c"] ∧
    parse_domains_list (DomainsInput.pyStr "[\"x.com\",\"y.com\"]") =
      Except.ok ["x.com", "y.com"] ∧
    parse_domains_list DomainsInput.pyNone = Except.ok [] :=
  ⟨rfl, rfl, rfl⟩

/-- C10: on strings that decode as JSON to a value that is neither an
array nor a string, such as 123, true or an empty object, the normalizer
raises (an AttributeError from calling strip on the decoded value)
instead of returning a list: it is not total on strings. -/
theorem C10_normalizer_raises :
    (∃ e, parse_domains_list (DomainsInput.pyStr "123") = Except.error e) ∧
    (∃ e, parse_domains_list (DomainsInput.pyStr "true") = Except.error e) ∧
    (∃ e, parse_domains_list (DomainsInput.pyStr "{}") = Except.error e) :=
  ⟨⟨_, rfl⟩, ⟨_, rfl⟩, ⟨_, rfl⟩⟩

/-- C1: over the supported input shapes — None, a list of strings, a
string decoding to a JSON array of strings, a comma-separated string
that is not JSON, and a bare non-JSON string — the normalizer returns a
list with no empty or whitespace-only entry, and the surviving entries
keep the relative order of the input (the output is a sublist of the
stripped input elements). -/
theorem C1_normalizer_invariant :
    (parse_domains_list DomainsInput.pyNone = Except.ok []) ∧
    (∀ xs : List String, ∃ out,
      parse_domains_list (DomainsInput.pyList xs) = Except.ok out ∧
      noBlankEntries out ∧ out.Sublist (xs.map pyStrip)) ∧
    (∀ (s : String) (elems : List String),
      jsonLoads (pyStrip s) = some (JValue.jarr (elems.map JValue.jstr)) →
      ∃ out, parse_domains_list (DomainsInput.pyStr s) = Except.ok out ∧
        noBlankEntries out ∧ out.Sublist (elems.map pyStrip)) ∧
    (∀ s : String, jsonLoads (pyStrip s) = none →
      ∃ out, parse_domains_list (DomainsInput.pyStr s) = Except.ok out ∧
        noBlankEntries out ∧
        out.Sublist ((splitOnComma (pyStrip s).toList).map (fun p => pyStrip (String.mk p)))) := by
  refine ⟨rfl, ?_, ?_, ?_⟩
  · intro xs
    exact ⟨stripFilter xs, rfl, fun x hx => mem_stripFilter hx, stripFilter_sublist xs⟩
  · intro s elems hj
    by_cases hv : pyStrip s = ""
    · rw [hv, jsonLoads_empty] at hj; cases hj
    · refine ⟨stripFilter elems, ?_, fun x hx => mem_stripFilter hx, stripFilter_sublist elems⟩
      unfold parse_domains_list
      simp only [hv, if_false, hj]
      exact jstripFilter_map_jstr elems
  · intro s hj
    by_cases hv : pyStrip s = ""
    · refine ⟨[], ?_, fun x hx => absurd hx (List.not_mem_nil x), List.nil_sublist _⟩
      unfold parse_domains_list
      simp only [hv, if_true]
    · by_cases hc : (pyStrip s).toList.contains ',' = true
      · refine ⟨stripFilter (pySplitComma (pyStrip s)), ?_,
          fun x hx => mem_stripFilter hx, ?_⟩
        · unfold parse_domains_list
          simp only [hv, if_false, hj, hc, if_true]
        · have h2 := stripFilter_sublist (pySplitComma (pyStrip s))
          unfold pySplitComma at h2
          rwa [List.map_map] at h2
      · have hc2 : (pyStrip s).toList.contains ',' = false := by
          revert hc; cases (pyStrip s).toList.contains ',' <;> simp
        refine ⟨[pyStrip s], ?_, ?_, ?_⟩
        · unfold parse_domains_list
          simp only [hv, if_false, hj, hc2]
          rfl
        · intro x hx
          rw [List.mem_singleton] at hx
          rw [hx, pyStrip_idem]
          exact hv
        · rw [splitOnComma_no_comma _ hc2]
          simp only [List.map_cons, List.map_nil]
          have h3 : pyStrip (String.mk (pyStrip s).toList) = pyStrip s := pyStrip_idem s
          rw [h3]

/-- Closed instances of C1: the hypothesised shapes are inhabited.  The
first applies the JSON-array case at a two-element array, the second the
comma case, the third the bare-string case. -/
theorem C1_normalizer_invariant_witness :
    (∃ out, parse_domains_list (DomainsInput.pyStr "[\"x.com\", \" \"]") = Except.ok out ∧
      noBlankEntries out ∧ out.Sublist (["x.com", " "].map pyStrip)) ∧
    (∃ out, parse_domains_list (DomainsInput.pyStr "a,, b ") = Except.ok out ∧
      noBlankEntries out ∧
      out.Sublist ((splitOnComma (pyStrip "a,, b ").toList).map
        (fun p => pyStrip (String.mk p)))) ∧
    (∃ out, parse_domains_list (DomainsInput.pyStr " hi ") = Except.ok out ∧
      noBlankEntries out ∧
      out.Sublist ((splitOnComma (pyStrip " hi ").toList).map
        (fun p => pyStrip (String.mk p)))) :=
  ⟨C1_normalizer_invariant.2.2.1 "[\"x.com\", \" \"]" ["x.com", " "] rfl,
   C1_normalizer_invariant.2.2.2 "a,, b " rfl,
   C1_normalizer_invariant.2.2.2 " hi " rfl⟩

/-! ## Claim theorems: the formatter -/

/-- C8: the formatter is deterministic — equal response dictionaries give
byte-for-byte identical output strings. -/
theorem C8_formatter_deterministic (r₁ r₂ : SearchResponse) (h : r₁ = r₂) :
    format_results r₁ = format_results r₂ := by rw [h]

theorem C8_formatter_deterministic_witness :
    (SearchResponse.mk (some "42") [⟨"T", "U", "C", none⟩] none none) =
      (SearchResponse.mk (some "42") [⟨"T", "U", "C", none⟩] none none) ∧
    format_results (SearchResponse.mk (some "42") [⟨"T", "U", "C", none⟩] none none) =
      format_results (SearchResponse.mk (some "42") [⟨"T", "U", "C", none⟩] none none) :=
  ⟨rfl, C8_formatter_deterministic _ _ rfl⟩

/-! ## Claim theorems: the calculator tools -/

/-- C9: add and subtract compute sum and difference of their integer
arguments; square_root is the non-negative real square root on
non-negative input and a domain error on negative input; in particular
add 2 3 is 5, subtract 2 3 is -1, square_root 9 is 3 and square_root -1
raises a domain error. -/
theorem C9_calculator_ops :
    Calculator.add 2 3 = 5 ∧
    Calculator.subtract 2 3 = -1 ∧
    Calculator.square_root 9 = Except.ok 3 ∧
    Calculator.square_root (-1) = Except.error "math domain error" ∧
    (∀ a b : Int, Calculator.add a b = a + b ∧ Calculator.subtract a b = a - b) ∧
    (∀ a : ℝ, 0 ≤ a → ∃ b, Calculator.square_root a = Except.ok b ∧
      0 ≤ b ∧ b ^ 2 = a) := by
  refine ⟨rfl, rfl, ?_, ?_, fun a b => ⟨rfl, rfl⟩, ?_⟩
  · unfold Calculator.square_root
    rw [if_neg (by norm_num)]
    have h9 : Real.sqrt 9 = 3 := by
      rw [show (9 : ℝ) = 3 ^ 2 by norm_num, Real.sqrt_sq (by norm_num)]
    rw [h9]
  · unfold Calculator.square_root
    rw [if_pos (by norm_num)]
  · intro a ha
    refine ⟨Real.sqrt a, ?_, Real.sqrt_nonneg a, Real.sq_sqrt ha⟩
    unfold Calculator.square_root
    rw [if_neg (not_lt.mpr ha)]

theorem C9_calculator_ops_witness :
    (0 : ℝ) ≤ 9 ∧ ∃ b, Calculator.square_root 9 = Except.ok b ∧ 0 ≤ b ∧ b ^ 2 = 9 :=
  ⟨by norm_num, C9_calculator_ops.2.2.2.2.2 9 (by norm_num)⟩

/-! ## Claim theorems: formatter section order -/

/-- Modelled from the spec: section 1 of the formatter contract — when
either domain filter is present, a Search Filters block with the
Including and Excluding lines (entries joined by comma and space), each
on its own line, followed by a blank line. -/
def specFiltersSection (response : SearchResponse) : List String :=
  if truthyList response.included_domains || truthyList response.excluded_domains then
    ["Search Filters:"] ++
    ((if truthyList response.included_domains then
        ["Including domains: " ++
          String.intercalate ", " (response.included_domains.getD [])]
      else []) ++
     (if truthyList response.excluded_domains then
        ["Excluding domains: " ++
          String.intercalate ", " (response.excluded_domains.getD [])]
      else [])) ++
    [""]
  else []

/-- Modelled from the spec: section 2 of the formatter contract — when an
answer is present, the Answer line, then the Sources heading with one
dash line of title and url per result, then a blank line. -/
def specAnswerSection (response : SearchResponse) : List String :=
  if truthyStr response.answer then
    ["Answer: " ++ response.answer.getD "", "\nSources:"] ++
      sourcesLines response.results ++ [""]
  else []

/-- Modelled from the spec: section 3 of the formatter contract — the
unconditional Detailed Results heading followed by the per-result
Title, URL, Content and optional Published lines. -/
def specDetailedSection (response : SearchResponse) : List String :=
  ["Detailed Results:"] ++ detailLines response.results

/-- C5: the formatter emits the three sections in the fixed order
filters, answer, detailed results, and on the response with answer 42
and the single result (T, U, C) the output starts with the Answer line,
contains the dash source line, and ends with the Detailed Results block
holding the Title, URL and Content lines. -/
theorem C5_formatter_section_order :
    (∀ response : SearchResponse,
      format_results response =
        String.intercalate "\n"
          (specFiltersSection response ++ specAnswerSection response ++
           specDetailedSection response)) ∧
    format_results (SearchResponse.mk (some "42") [⟨"T", "U", "C", none⟩] none none) =
      "Answer: 42\n\nSources:\n- T: U\n\nDetailed Results:\n\nTitle: T\nURL: U\nContent: C" ∧
    (∃ t, format_results (SearchResponse.mk (some "42") [⟨"T", "U", "C", none⟩] none none) =
      "Answer: 42" ++ t) ∧
    (∃ u v, format_results (SearchResponse.mk (some "42") [⟨"T", "U", "C", none⟩] none none) =
      u ++ "- T: U" ++ v) ∧
    (∃ w, format_results (SearchResponse.mk (some "42") [⟨"T", "U", "C", none⟩] none none) =
      w ++ "Detailed Results:\n\nTitle: T\nURL: U\nContent: C") := by
  refine ⟨?_, rfl,
    ⟨"\n\nSources:\n- T: U\n\nDetailed Results:\n\nTitle: T\nURL: U\nContent: C", rfl⟩,
    ⟨"Answer: 42\n\nSources:\n",
     "\n\nDetailed Results:\n\nTitle: T\nURL: U\nContent: C", rfl⟩,
    ⟨"Answer: 42\n\nSources:\n- T: U\n\n", rfl⟩⟩
  intro response
  simp only [format_results, specFiltersSection, specAnswerSection, specDetailedSection,
    List.nil_append, List.append_assoc]

/-! ## Claim theorems: the search handlers -/

/-- C6: a search_depth that is neither basic nor advanced is silently
replaced by the per-tool default — basic for the web search, advanced
for the answer search — and the provider call proceeds; with a
successful provider the handler still returns formatted output. -/
theorem C6_search_depth_fallback (provider : ProviderRequest → ProviderOutcome)
    (query : String) (max_results : Int) (depth inc exc : String)
    (h1 : depth ≠ "basic") (h2 : depth ≠ "advanced") :
    (webSearchRequest query max_results depth inc exc).search_depth = some "basic" ∧
    (tavily_web_search provider query max_results depth inc exc).2 =
      [webSearchRequest query max_results depth inc exc] ∧
    (∀ resp, provider (webSearchRequest query max_results depth inc exc) =
        ProviderOutcome.success resp →
      ∃ text, (tavily_web_search provider query max_results depth inc exc).1 =
        Except.ok text) ∧
    (answerSearchRequest query max_results depth inc exc).search_depth = some "advanced" ∧
    (tavily_answer_search provider query max_results depth inc exc).2 =
      [answerSearchRequest query max_results depth inc exc] ∧
    (∀ resp, provider (answerSearchRequest query max_results depth inc exc) =
        ProviderOutcome.success resp →
      ∃ text, (tavily_answer_search provider query max_results depth inc exc).1 =
        Except.ok text) := by
  refine ⟨?_, ?_, ?_, ?_, ?_, ?_⟩
  · simp [webSearchRequest, h1, h2]
  · unfold tavily_web_search runSearchTool
    cases provider (webSearchRequest query max_results depth inc exc) <;> rfl
  · intro resp hp
    unfold tavily_web_search runSearchTool
    rw [hp]
    exact ⟨_, rfl⟩
  · simp [answerSearchRequest, h1, h2]
  · unfold tavily_answer_search runSearchTool
    cases provider (answerSearchRequest query max_results depth inc exc) <;> rfl
  · intro resp hp
    unfold tavily_answer_search runSearchTool
    rw [hp]
    exact ⟨_, rfl⟩

theorem C6_search_depth_fallback_witness :
    ("turbo" : String) ≠ "basic" ∧ ("turbo" : String) ≠ "advanced" ∧
    (webSearchRequest "q" 5 "turbo" "" "").search_depth = some "basic" ∧
    (answerSearchRequest "q" 5 "turbo" "" "").search_depth = some "advanced" :=
  ⟨by decide, by decide,
   (C6_search_depth_fallback (fun _ => ProviderOutcome.success ⟨none, [], none, none⟩)
      "q" 5 "turbo" "" "" (by decide) (by decide)).1,
   (C6_search_depth_fallback (fun _ => ProviderOutcome.success ⟨none, [], none, none⟩)
      "q" 5 "turbo" "" "" (by decide) (by decide)).2.2.2.1⟩

/-- C7: a provider failure with an invalid API key or an exceeded usage
limit surfaces as an INTERNAL_ERROR McpError with the provider message,
a ValueError surfaces as an INVALID_PARAMS McpError; in each case the
invocation ends with that error, no formatted result, and exactly one
provider call (no retry).  Stated for the web and news tools, whose
except blocks the claim cites. -/
theorem C7_provider_error_mapping (provider : ProviderRequest → ProviderOutcome)
    (query : String) (max_results : Int) (depth : String) (days : Int)
    (inc exc m : String) :
    (provider (webSearchRequest query max_results depth inc exc) =
        ProviderOutcome.invalidAPIKeyError m →
      tavily_web_search provider query max_results depth inc exc =
        (Except.error ⟨INTERNAL_ERROR, m⟩,
         [webSearchRequest query max_results depth inc exc])) ∧
    (provider (webSearchRequest query max_results depth inc exc) =
        ProviderOutcome.usageLimitExceededError m →
      tavily_web_search provider query max_results depth inc exc =
        (Except.error ⟨INTERNAL_ERROR, m⟩,
         [webSearchRequest query max_results depth inc exc])) ∧
    (provider (webSearchRequest query max_results depth inc exc) =
        ProviderOutcome.valueError m →
      tavily_web_search provider query max_results depth inc exc =
        (Except.error ⟨INVALID_PARAMS, m⟩,
         [webSearchRequest query max_results depth inc exc])) ∧
    (provider (newsSearchRequest query max_results days inc exc) =
        ProviderOutcome.invalidAPIKeyError m →
      tavily_news_search provider query max_results days inc exc =
        (Except.error ⟨INTERNAL_ERROR, m⟩,
         [newsSearchRequest query max_results days inc exc])) ∧
    (provider (newsSearchRequest query max_results days inc exc) =
        ProviderOutcome.usageLimitExceededError m →
      tavily_news_search provider query max_results days inc exc =
        (Except.error ⟨INTERNAL_ERROR, m⟩,
         [newsSearchRequest query max_results days inc exc])) ∧
    (provider (newsSearchRequest query max_results days inc exc) =
        ProviderOutcome.valueError m →
      tavily_news_search provider query max_results days inc exc =
        (Except.error ⟨INVALID_PARAMS, m⟩,
         [newsSearchRequest query max_results days inc exc])) := by
  refine ⟨?_, ?_, ?_, ?_, ?_, ?_⟩ <;>
    (intro h; simp only [tavily_web_search, tavily_news_search, runSearchTool, h])

theorem C7_provider_error_mapping_witness :
    tavily_web_search (fun _ => ProviderOutcome.invalidAPIKeyError "bad key")
      "q" 5 "basic" "" "" =
      (Except.error ⟨INTERNAL_ERROR, "bad key"⟩, [webSearchRequest "q" 5 "basic" "" ""]) ∧
    tavily_news_search (fun _ => ProviderOutcome.valueError "bad value")
      "q" 5 3 "" "" =
      (Except.error ⟨INVALID_PARAMS, "bad value"⟩, [newsSearchRequest "q" 5 3 "" ""]) :=
  ⟨(C7_provider_error_mapping (fun _ => ProviderOutcome.invalidAPIKeyError "bad key")
      "q" 5 "basic" 3 "" "" "bad key").1 rfl,
   (C7_provider_error_mapping (fun _ => ProviderOutcome.valueError "bad value")
      "q" 5 "basic" 3 "" "" "bad value").2.2.2.2.2 rfl⟩

/-- C2 is violated by the code: the pydantic SearchBase model declares
max_results bounded in the open interval (0, 20), but the handler entry
points never use that model — a call with max_results 25 or 0 issues the
provider call with that very value instead of rejecting it first. -/
theorem C2_out_of_range_max_results_reaches_provider :
    SearchBase.max_results_valid 25 = false ∧
    SearchBase.max_results_valid 0 = false ∧
    (∀ provider : ProviderRequest → ProviderOutcome,
      (tavily_web_search provider "q" 25 "basic" "" "").2.map
          ProviderRequest.max_results = [25] ∧
      (tavily_web_search provider "q" 0 "basic" "" "").2.map
          ProviderRequest.max_results = [0]) := by
  refine ⟨rfl, rfl, fun provider => ⟨?_, ?_⟩⟩
  · unfold tavily_web_search runSearchTool
    cases provider (webSearchRequest "q" 25 "basic" "" "") <;> rfl
  · unfold tavily_web_search runSearchTool
    cases provider (webSearchRequest "q" 0 "basic" "" "") <;> rfl

/-! ## Claim theorems: the two normalization paths agree (C4)

The handler entry points split the raw argument on commas; rule c of the
parameter-model normalizer splits the stripped argument.  The stripped
pieces coincide because outer whitespace only pads the first and last
piece.  The development works on character lists and is lifted to
strings at the end. -/

/-- The strip-and-drop-empties comprehension on character-list pieces. -/
def stripFilterC (ps : List (List Char)) : List (List Char) :=
  (ps.filter (fun d => stripChars d ≠ [])).map stripChars

theorem pyStrip_mk (l : List Char) : pyStrip (String.mk l) = String.mk (stripChars l) := by
  unfold pyStrip
  rw [toList_mk]

/-- Lifting stripFilterC to the string level. -/
theorem stripFilter_map_mk (ps : List (List Char)) :
    stripFilter (ps.map String.mk) = (stripFilterC ps).map String.mk := by
  unfold stripFilter stripFilterC
  rw [List.filter_map, List.map_map, List.map_map]
  have hcond : ((fun d => decide (pyStrip d ≠ "")) ∘ String.mk) =
      fun l => decide (stripChars l ≠ []) := by
    funext l
    simp only [Function.comp_apply, pyStrip_mk, ne_eq, decide_not]
    exact congrArg Bool.not (decide_eq_decide.mpr mk_eq_empty)
  rw [hcond]
  have hmap : (pyStrip ∘ String.mk) = (String.mk ∘ stripChars) := by
    funext l
    exact pyStrip_mk l
  rw [hmap]

/-- Filtering the empties after mapping strip is the same comprehension. -/
theorem filter_map_eq_stripFilter (ps : List String) :
    (ps.map pyStrip).filter (fun t => t ≠ "") = stripFilter ps := by
  unfold stripFilter
  rw [List.filter_map]
  rfl

theorem splitOnComma_ne_nil (cs : List Char) : splitOnComma cs ≠ [] := by
  unfold splitOnComma
  cases cs with
  | nil => simp
  | cons c rest =>
    by_cases h : c = ','
    · simp [h]
    · simp only [if_neg h]
      cases splitOnComma rest <;> simp

theorem isPySpace_ne_comma {c : Char} (h : isPySpace c = true) : ¬c = ',' := by
  intro hc
  rw [hc] at h
  simp [isPySpace] at h

theorem stripChars_cons_space {c : Char} (hc : isPySpace c = true) (l : List Char) :
    stripChars (c :: l) = stripChars l := by
  unfold stripChars ltrimC
  rw [List.dropWhile_cons_of_pos hc]

theorem rtrimC_append_space {c : Char} (hc : isPySpace c = true) (l : List Char) :
    rtrimC (l ++ [c]) = rtrimC l := by
  unfold rtrimC
  rw [List.reverse_append, List.reverse_singleton, List.singleton_append,
    List.dropWhile_cons_of_pos hc]

theorem stripChars_append_space {c : Char} (hc : isPySpace c = true) (l : List Char) :
    stripChars (l ++ [c]) = stripChars l := by
  unfold stripChars
  rw [show ltrimC (l ++ [c]) = if (ltrimC l).isEmpty then ltrimC [c] else ltrimC l ++ [c]
      from List.dropWhile_append]
  by_cases h : (ltrimC l).isEmpty
  · rw [if_pos h]
    have h1 : ltrimC [c] = [] := by
      unfold ltrimC
      rw [List.dropWhile_cons_of_pos hc]
      rfl
    have h2 : ltrimC l = [] := by
      cases h3 : ltrimC l
      · rfl
      · rw [h3] at h; simp at h
    rw [h1, h2]
  · rw [if_neg h, rtrimC_append_space hc]

/-- Appending one character to the last piece of a non-empty piece list
(and to a fresh piece when there is none). -/
def appendLast : List (List Char) → Char → List (List Char)
  | [], c => [[c]]
  | [piece], c => [piece ++ [c]]
  | piece :: ps, c => piece :: appendLast ps c

theorem splitOnComma_append_char (m : List Char) {c : Char} (hc : ¬c = ',') :
    splitOnComma (m ++ [c]) = appendLast (splitOnComma m) c := by
  induction m with
  | nil =>
    simp only [List.nil_append]
    unfold splitOnComma
    rw [if_neg hc]
    rfl
  | cons a m' ih =>
    by_cases ha : a = ','
    · simp only [List.cons_append]
      unfold splitOnComma
      rw [if_pos ha, if_pos ha, ih]
      cases h : splitOnComma m' with
      | nil => exact absurd h (splitOnComma_ne_nil m')
      | cons q qs => cases qs <;> rfl
    · simp only [List.cons_append]
      unfold splitOnComma
      rw [if_neg ha, if_neg ha, ih]
      cases h : splitOnComma m' with
      | nil => exact absurd h (splitOnComma_ne_nil m')
      | cons q qs => cases qs <;> rfl

theorem stripFilterC_cons (q : List Char) (ps : List (List Char)) :
    stripFilterC (q :: ps) =
      if stripChars q = [] then stripFilterC ps
      else stripChars q :: stripFilterC ps := by
  unfold stripFilterC
  rw [List.filter_cons]
  by_cases h : stripChars q = [] <;> simp [h]

theorem stripFilterC_appendLast {c : Char} (hc : isPySpace c = true)
    (ps : List (List Char)) : stripFilterC (appendLast ps c) = stripFilterC ps := by
  induction ps with
  | nil =>
    show stripFilterC [[c]] = stripFilterC []
    have h1 : stripChars [c] = [] := stripChars_append_space hc []
    rw [stripFilterC_cons, if_pos h1]
  | cons q ps ih =>
    cases ps with
    | nil =>
      show stripFilterC [q ++ [c]] = stripFilterC [q]
      rw [stripFilterC_cons, stripFilterC_cons, stripChars_append_space hc]
    | cons r rs =>
      show stripFilterC (q :: appendLast (r :: rs) c) = stripFilterC (q :: r :: rs)
      rw [stripFilterC_cons, stripFilterC_cons, ih]

theorem stripFilterC_split_cons_space {c : Char} (hc : isPySpace c = true)
    (l : List Char) :
    stripFilterC (splitOnComma (c :: l)) = stripFilterC (splitOnComma l) := by
  have h0 : splitOnComma (c :: l) =
      match splitOnComma l with
      | [] => [[c]]
      | piece :: pieces => (c :: piece) :: pieces := by
    conv_lhs => unfold splitOnComma
    rw [if_neg (isPySpace_ne_comma hc)]
  cases h : splitOnComma l with
  | nil => exact absurd h (splitOnComma_ne_nil l)
  | cons q qs =>
    rw [h] at h0
    rw [h0, stripFilterC_cons, stripFilterC_cons, stripChars_cons_space hc]

theorem stripFilterC_split_ltrim (cs : List Char) :
    stripFilterC (splitOnComma (ltrimC cs)) = stripFilterC (splitOnComma cs) := by
  induction cs with
  | nil => rfl
  | cons c cs' ih =>
    by_cases hc : isPySpace c = true
    · have h1 : ltrimC (c :: cs') = ltrimC cs' := List.dropWhile_cons_of_pos hc
      rw [h1, ih, stripFilterC_split_cons_space hc]
    · have h1 : ltrimC (c :: cs') = c :: cs' := List.dropWhile_cons_of_neg hc
      rw [h1]

theorem stripFilterC_split_rtrim (m : List Char) :
    stripFilterC (splitOnComma (rtrimC m)) = stripFilterC (splitOnComma m) := by
  induction m using List.reverseRecOn with
  | nil => rfl
  | append_singleton m' c ih =>
    by_cases hc : isPySpace c = true
    · rw [rtrimC_append_space hc, ih,
        splitOnComma_append_char m' (isPySpace_ne_comma hc),
        stripFilterC_appendLast hc]
    · have h1 : rtrimC (m' ++ [c]) = m' ++ [c] := by
        unfold rtrimC
        rw [List.reverse_append, List.reverse_singleton, List.singleton_append,
          List.dropWhile_cons_of_neg hc, List.reverse_cons, List.reverse_reverse]
      rw [h1]

/-- Splitting the stripped string and splitting the raw string agree
after the pieces themselves are stripped and the empty ones dropped. -/
theorem stripFilterC_split_stripChars (cs : List Char) :
    stripFilterC (splitOnComma (stripChars cs)) = stripFilterC (splitOnComma cs) := by
  unfold stripChars
  rw [stripFilterC_split_rtrim (ltrimC cs), stripFilterC_split_ltrim]

/-- Modelled from the spec: rule c of the parameter-model normalizer —
trim the string, split on commas, trim each piece, drop empty pieces. -/
def specCommaTrimRule (s : String) : List String :=
  ((pySplitComma (pyStrip s)).map pyStrip).filter (fun t => t ≠ "")

/-- C4: for every string, the inline handler normalization equals the
comma/trim rule of the parameter-model normalizer. -/
theorem C4_handler_matches_comma_trim_rule (s : String) :
    parseHandlerDomains s = specCommaTrimRule s := by
  by_cases hv : pyStrip s = ""
  · have h0 : parseHandlerDomains s = [] := by
      unfold parseHandlerDomains
      rw [if_neg (by intro h; exact h.2 hv)]
    rw [h0]
    unfold specCommaTrimRule
    rw [hv]
    rfl
  · have hne : s ≠ "" := by
      intro h
      rw [h] at hv
      exact hv rfl
    unfold parseHandlerDomains specCommaTrimRule
    rw [if_pos ⟨hne, hv⟩]
    calc stripFilter (pySplitComma s)
        = (stripFilterC (splitOnComma s.toList)).map String.mk :=
          stripFilter_map_mk (splitOnComma s.toList)
      _ = (stripFilterC (splitOnComma (stripChars s.toList))).map String.mk := by
          rw [stripFilterC_split_stripChars]
      _ = stripFilter (pySplitComma (pyStrip s)) :=
          (stripFilter_map_mk (splitOnComma (stripChars s.toList))).symm
      _ = ((pySplitComma (pyStrip s)).map pyStrip).filter (fun t => t ≠ "") :=
          (filter_map_eq_stripFilter (pySplitComma (pyStrip s))).symm

/-- Closed instance of C4 at a concrete comma-separated string. -/
theorem C4_handler_matches_comma_trim_rule_witness :
    parseHandlerDomains " a , b ,, c " = specCommaTrimRule " a , b ,, c " :=
  C4_handler_matches_comma_trim_rule " a , b ,, c "

end Tavily
